import Mathlib

/-!
Verification of the orchestration core of the `flask_llm_app` repository
(`homework2_app/flask_app/utils/llm.py`), as a shallow embedding.

Strings are modelled as `List Char`.  The regular-expression based parsing in
the Python source is embedded as direct character-list scanners, one per regex,
matching Python `re` semantics (leftmost match, documented backtracking
behaviour) on the ASCII inputs the code deals with.  External collaborators
(the Groq language-model client, the database, the embedding provider, the web
crawler) are supplied as explicit oracle functions, exactly at the call
boundaries the source uses.
-/

abbrev Str := List Char

/-- ASCII whitespace as matched by Python `\s` and stripped by `str.strip()`. -/
def isSpaceChar (c : Char) : Bool :=
  c = ' ' || c = '\t' || c = '\n' || c = '\r' || c.toNat = 11 || c.toNat = 12

/-- ASCII word character, Python regex `\w` (the inputs are ASCII). -/
def isWordChar (c : Char) : Bool :=
  c.isAlphanum || c = '_'

/-- A single or double quote character (Python `[\x27"]`). -/
def isQuoteChar (c : Char) : Bool :=
  c = '"' || c = '\x27'

/-- The `str.lower()` on ASCII text. -/
def lowerL (s : Str) : Str := s.map Char.toLower

/-- The `str.strip()` on ASCII text: drop whitespace from both ends. -/
def stripL (s : Str) : Str :=
  ((s.dropWhile isSpaceChar).reverse.dropWhile isSpaceChar).reverse

/-- Python `str.strip` over the two quote characters: drop them from both ends. -/
def stripQuotesL (s : Str) : Str :=
  ((s.dropWhile isQuoteChar).reverse.dropWhile isQuoteChar).reverse

/-- Substring test, Python `needle in hay`. -/
def containsSeq (needle : Str) : Str → Bool
  | [] => needle.isEmpty
  | c :: rest => needle.isPrefixOf (c :: rest) || containsSeq needle rest

/-- Run a positional matcher at every suffix, left to right; the first
position where it fires wins (Python `re.search` leftmost-match rule). -/
def scanFor {α : Type} (f : Str → Option α) : Str → Option α
  | [] => f []
  | c :: rest =>
    match f (c :: rest) with
    | some v => some v
    | none => scanFor f rest

/-- Characters strictly before the first occurrence of `stop`; `none` if
`stop` does not occur. -/
def splitAtChar (stop : Char) : Str → Option Str
  | [] => none
  | c :: rest =>
    if c = stop then some []
    else (splitAtChar stop rest).map (c :: ·)

/-- Remainder after the first occurrence of `pat` (as a contiguous block). -/
def afterFirstSeq (pat : Str) : Str → Option Str
  | [] => if pat.isEmpty then some [] else none
  | c :: rest =>
    if pat.isPrefixOf (c :: rest) then some ((c :: rest).drop pat.length)
    else afterFirstSeq pat rest

/-- Python `sep.join(parts)`. -/
def joinSep (sep : Str) : List Str → Str
  | [] => []
  | [x] => x
  | x :: xs => x ++ sep ++ joinSep sep xs

/-- Python `l[-n:]`.  Note the `n = 0` quirk: `l[-0:]` is `l[0:]`, the whole
list, so a "maximum" of zero disables truncation entirely. -/
def pyTakeLast {α : Type} (n : Nat) (l : List α) : List α :=
  if n = 0 then l else l.drop (l.length - n)

/-- Lines of a string (split on newline); used for the template-placeholder
regexes, whose `.` never crosses a newline. -/
def splitLines : Str → List Str
  | [] => [[]]
  | c :: rest =>
    if c = '\n' then [] :: splitLines rest
    else
      match splitLines rest with
      | [] => [[c]]
      | l :: ls => (c :: l) :: ls

/-- The needles occur in this order, non-overlapping, inside `t`. -/
def inOrderSeq : List Str → Str → Bool
  | [], _ => true
  | n :: ns, t =>
    match afterFirstSeq n t with
    | some r => inOrderSeq ns r
    | none => false

--==================================================
-- RISK ASSESSMENT (llm.py, `assess_message_risk`, lines 369-395)
--==================================================

structure RiskAssessment where
  risk_level : Str
  explanation : Str
  keywords_found : List Str
deriving DecidableEq, Repr

/-- The fixed destructive-intent keyword list of `assess_message_risk`. -/
def dangerous_keywords : List Str :=
  ["delete".toList, "remove".toList, "clear".toList,
   "drop".toList, "destroy".toList, "truncate".toList]

/-- Embedding of `assess_message_risk` (llm.py lines 369-395): lowercase the
message, collect the dangerous keywords occurring as substrings, and build the
result dict. -/
def assess_message_risk (message : Str) : RiskAssessment :=
  let message_lower := lowerL message
  let found_keywords := dangerous_keywords.filter (fun kw => containsSeq kw message_lower)
  if found_keywords.isEmpty then
    { risk_level := "low".toList,
      explanation := "This request appears safe to process.".toList,
      keywords_found := [] }
  else
    { risk_level := "high".toList,
      explanation :=
        "This request contains potentially dangerous operations: ".toList
          ++ joinSep ", ".toList found_keywords
          ++ ". This action may modify or delete data.".toList,
      keywords_found := found_keywords }

--==================================================
-- CONVERSATION HISTORY (llm.py, `handle_ai_chat_request`, lines 301-362)
--==================================================

structure ChatMsg where
  role : Str
  content : Str
deriving DecidableEq, Repr

structure LLMResult where
  success : Bool
  response : Str
  error : Str
deriving DecidableEq, Repr

/-- Session-history effect of `handle_ai_chat_request` (llm.py lines 333-351).
The Groq call itself is external; its result is the `result` argument.
`max_history` is `GROQ_MAX_CONVERSATION_HISTORY` (default 1 — it counts
messages, not exchanges).  On `success=False` the stored history is untouched;
on success the user/assistant pair is appended and the list truncated to the
last `max_history` entries when it exceeds `max_history`. -/
def handle_ai_chat_request (max_history : Nat) (history : List ChatMsg)
    (message : Str) (result : LLMResult) : List ChatMsg :=
  if result.success then
    let h := history ++ [⟨"user".toList, message⟩, ⟨"assistant".toList, result.response⟩]
    if max_history < h.length then pyTakeLast max_history h else h
  else history

/-- Sequential chat turns threading the stored session history. -/
def runChatTurns (max_history : Nat) : List ChatMsg → List (Str × LLMResult) → List ChatMsg
  | h, [] => h
  | h, (m, r) :: rest => runChatTurns max_history (handle_ai_chat_request max_history h m r) rest

--==================================================
-- ReAct RESPONSE PARSING (llm.py, `handle_ai_chat_request_react`)
--==================================================

/-- The `"Final Answer:" in t or "FINAL ANSWER:" in t` (llm.py line 586). -/
def hasFinalAnswer (t : Str) : Bool :=
  containsSeq "Final Answer:".toList t || containsSeq "FINAL ANSWER:".toList t

/-- The `re.split` with pattern `Final Answer:|FINAL ANSWER:` and maxsplit 1, last part: everything
after the leftmost of the two markers (both are 13 characters; at most one can
match at a given position).  Only used when a marker is present. -/
def afterFinalAnswerMarker : Str → Str
  | [] => []
  | c :: rest =>
    if "Final Answer:".toList.isPrefixOf (c :: rest) then (c :: rest).drop 13
    else if "FINAL ANSWER:".toList.isPrefixOf (c :: rest) then (c :: rest).drop 13
    else afterFinalAnswerMarker rest

/-- The `final_answer` of llm.py line 587: split at the marker and strip. -/
def finalAnswerText (t : Str) : Str := stripL (afterFinalAnswerMarker t)

/-- One positional attempt of `re.search` with `Action:\s*(\w+)` (IGNORECASE):
case-insensitive literal `Action:`, optional whitespace, then at least one word
character (whitespace is not a word character, so the greedy `\s*` cannot
backtrack into a match). -/
def actionNameAt (t : Str) : Option Str :=
  if "action:".toList.isPrefixOf (lowerL t) then
    let w := ((t.drop 7).dropWhile isSpaceChar).takeWhile isWordChar
    if w.isEmpty then none else some w
  else none

/-- The `action_match.group(1)` of llm.py line 641, `none` when the regex finds no
match anywhere. -/
def findActionName (t : Str) : Option Str := scanFor actionNameAt t

/-- Terminator of the lazy capture in
`Action Input:\s*(.+?)(?:\nThought:|\nAction:|$)` (IGNORECASE | DOTALL):
a `\nThought:` or `\nAction:` marker (case-insensitive), end of string, or a
sole trailing newline (Python `$` without MULTILINE). -/
def inputCaptureStop (t : Str) : Bool :=
  "\nthought:".toList.isPrefixOf (lowerL t)
    || "\naction:".toList.isPrefixOf (lowerL t)
    || t.isEmpty || t = ['\n']

/-- Lazy capture: the shortest non-empty prefix after which the terminator
matches. -/
def takeUntilStop : Str → Str
  | [] => []
  | c :: rest => if inputCaptureStop rest then [c] else c :: takeUntilStop rest

/-- One positional attempt of input pattern 1 (`Action Input: ...`), with the
`.strip()` of llm.py line 663 already applied.  When the text after the marker
is all whitespace, the regex still matches (the greedy `\s*` gives one
character back to `(.+?)`) and the stripped group is empty. -/
def inputPattern1At (t : Str) : Option Str :=
  if "action input:".toList.isPrefixOf (lowerL t) then
    let afterMarker := t.drop 13
    if afterMarker.isEmpty then none
    else
      let afterWs := afterMarker.dropWhile isSpaceChar
      if afterWs.isEmpty then some []
      else some (stripL (takeUntilStop afterWs))
  else none

/-- One positional attempt of the bracketed patterns
`Action:\s*\w+\s*\[(.+?)\]` and its parenthesis variant (IGNORECASE | DOTALL),
with `.strip()` applied: case-insensitive `Action:`, whitespace, a word, more
whitespace, then the open delimiter and a lazy non-empty capture up to the
first close delimiter. -/
def inputDelimAt (openC closeC : Char) (t : Str) : Option Str :=
  if "action:".toList.isPrefixOf (lowerL t) then
    let w := ((t.drop 7).dropWhile isSpaceChar).takeWhile isWordChar
    if w.isEmpty then none
    else
      let rest := (((t.drop 7).dropWhile isSpaceChar).drop w.length).dropWhile isSpaceChar
      match rest with
      | [] => none
      | d :: body =>
        if d = openC then
          match body with
          | [] => none
          | b :: more => ((splitAtChar closeC more).map (fun v => stripL (b :: v)))
        else none
  else none

/-- One positional attempt of `Parameters:` followed by a braced lazy capture (IGNORECASE |
DOTALL), with `.strip()` applied. -/
def inputParamsAt (t : Str) : Option Str :=
  if "parameters:".toList.isPrefixOf (lowerL t) then
    let rest := (t.drop 11).dropWhile isSpaceChar
    match rest with
    | [] => none
    | d :: body =>
      if d = '\x7b' then
        match body with
        | [] => none
        | b :: more => ((splitAtChar '\x7d' more).map (fun v => stripL (b :: v)))
      else none
  else none

/-- The `action_input` of llm.py lines 651-664: the four patterns are tried in
order over the whole response; the first that matches anywhere wins; default
is the empty string. -/
def extractActionInput (t : Str) : Str :=
  match scanFor inputPattern1At t with
  | some v => v
  | none =>
    match scanFor (inputDelimAt '[' ']') t with
    | some v => v
    | none =>
      match scanFor (inputDelimAt '(' ')') t with
      | some v => v
      | none =>
        match scanFor inputParamsAt t with
        | some v => v
        | none => []

--==================================================
-- SEMANTIC-SEARCH / SQL / URL ARGUMENT EXTRACTION (llm.py lines 667-736)
--==================================================

/-- One positional attempt of `table\s*[:=]\s*[\x27"]?(\w+)[\x27"]?`
(IGNORECASE): the key, optional whitespace, `:` or `=`, optional whitespace,
an optional quote, then at least one word character (if a quote is present but
no word character follows, backtracking to zero quotes cannot help, since a
quote is not a word character). -/
def kvWordAt (key : Str) (t : Str) : Option Str :=
  if key.isPrefixOf (lowerL t) then
    match (t.drop key.length).dropWhile isSpaceChar with
    | [] => none
    | c :: rest =>
      if c = ':' || c = '=' then
        let r2 := rest.dropWhile isSpaceChar
        let r3 := if (r2.head?.map isQuoteChar).getD false then r2.drop 1 else r2
        let w := r3.takeWhile isWordChar
        if w.isEmpty then none else some w
      else none
  else none

/-- One positional attempt of `query\s*[:=]\s*[\x27"]([^\x27"]+)[\x27"]`
(IGNORECASE): the key, `:` or `=`, then a required quote, at least one
non-quote character (greedy; the character class can never reach a quote, so
the closing quote exists exactly when the capture is followed by any
character), then a closing quote of either kind. -/
def kvQuotedAt (key : Str) (t : Str) : Option Str :=
  if key.isPrefixOf (lowerL t) then
    match (t.drop key.length).dropWhile isSpaceChar with
    | [] => none
    | c :: rest =>
      if c = ':' || c = '=' then
        match rest.dropWhile isSpaceChar with
        | [] => none
        | q :: r2 =>
          if isQuoteChar q then
            let v := r2.takeWhile (fun ch => ¬ isQuoteChar ch)
            if v.isEmpty then none
            else if (r2.drop v.length).isEmpty then none else some v
          else none
      else none
  else none

/-- One positional attempt of the dict-style pattern
`[\x27"]table[\x27"]\s*:\s*[\x27"]?(\w+)[\x27"]?`: quoted key, a colon,
then the optionally quoted word value. -/
def dictWordAt (key : Str) (t : Str) : Option Str :=
  match t with
  | [] => none
  | q :: rest =>
    if isQuoteChar q ∧ key.isPrefixOf (lowerL rest) then
      match rest.drop key.length with
      | [] => none
      | q2 :: r2 =>
        if isQuoteChar q2 then
          match r2.dropWhile isSpaceChar with
          | [] => none
          | c :: r3 =>
            if c = ':' then
              let r4 := r3.dropWhile isSpaceChar
              let r5 := if (r4.head?.map isQuoteChar).getD false then r4.drop 1 else r4
              let w := r5.takeWhile isWordChar
              if w.isEmpty then none else some w
            else none
        else none
    else none

/-- One positional attempt of the dict-style pattern
`[\x27"]query[\x27"]\s*:\s*[\x27"]([^\x27"]+)[\x27"]`. -/
def dictQuotedAt (key : Str) (t : Str) : Option Str :=
  match t with
  | [] => none
  | q :: rest =>
    if isQuoteChar q ∧ key.isPrefixOf (lowerL rest) then
      match rest.drop key.length with
      | [] => none
      | q2 :: r2 =>
        if isQuoteChar q2 then
          match r2.dropWhile isSpaceChar with
          | [] => none
          | c :: r3 =>
            if c = ':' then
              match r3.dropWhile isSpaceChar with
              | [] => none
              | q3 :: r4 =>
                if isQuoteChar q3 then
                  let v := r4.takeWhile (fun ch => ¬ isQuoteChar ch)
                  if v.isEmpty then none
                  else if (r4.drop v.length).isEmpty then none else some v
                else none
            else none
        else none
    else none

/-- The `table_match` of llm.py lines 673-687: format 1 on `action_input`, then
dict-style on `action_input`, then dict-style on the lowercased full response
text (whose captures are therefore lowercase). -/
def findTable (action_input response_text : Str) : Option Str :=
  match scanFor (kvWordAt "table".toList) action_input with
  | some v => some v
  | none =>
    match scanFor (dictWordAt "table".toList) action_input with
    | some v => some v
    | none => scanFor (dictWordAt "table".toList) (lowerL response_text)

/-- The `query_match` of llm.py lines 674-691, with the same three-stage
fallback. -/
def findQuery (action_input response_text : Str) : Option Str :=
  match scanFor (kvQuotedAt "query".toList) action_input with
  | some v => some v
  | none =>
    match scanFor (dictQuotedAt "query".toList) action_input with
    | some v => some v
    | none => scanFor (dictQuotedAt "query".toList) (lowerL response_text)

/-- The `(table, query)` pair actually passed to `execute_semantic_search`
(llm.py lines 693-703): the parsed pair when both matched, else the hard
default `("institutions", "MSU")`. -/
def semanticArgs (action_input response_text : Str) : Str × Str :=
  match findTable action_input response_text, findQuery action_input response_text with
  | some tb, some q => (tb, q)
  | _, _ => ("institutions".toList, "MSU".toList)

/-- The `re.sub` with anchored pattern `^sql\s*[:=]\s*` and empty replacement (IGNORECASE): remove one
leading `sql` key marker when present (the pattern is anchored, so at most one
removal happens). -/
def dropSqlKey (s : Str) : Str :=
  if "sql".toList.isPrefixOf (lowerL s) then
    match (s.drop 3).dropWhile isSpaceChar with
    | [] => s
    | c :: rest => if c = ':' || c = '=' then rest.dropWhile isSpaceChar else s
  else s

/-- The SQL string passed to `execute_sql_query` (llm.py lines 707-711):
strip quotes, drop a leading `sql=` marker, strip quotes again. -/
def sqlArgOf (action_input : Str) : Str :=
  stripQuotesL (dropSqlKey (stripQuotesL action_input))

/-- Character class `[^\x27"\\s]` of the url regex: the raw pattern escapes
the backslash, so the class excludes quotes, a backslash and the LETTER `s` —
not whitespace. -/
def isUrlStop (c : Char) : Bool :=
  c = '\x27' || c = '"' || c = '\\' || c = 's'

/-- One positional attempt of `url\s*[:=]\s*[\x27"]?([^\x27"\\s]+)[\x27"]?`
(IGNORECASE). -/
def urlKVAt (t : Str) : Option Str :=
  if "url".toList.isPrefixOf (lowerL t) then
    match (t.drop 3).dropWhile isSpaceChar with
    | [] => none
    | c :: rest =>
      if c = ':' || c = '=' then
        let r2 := rest.dropWhile isSpaceChar
        let r3 := if (r2.head?.map isQuoteChar).getD false then r2.drop 1 else r2
        let w := r3.takeWhile (fun ch => ¬ isUrlStop ch)
        if w.isEmpty then none else some w
      else none
  else none

/-- One positional attempt of the dict-style url pattern
`[\x27"]url[\x27"]\s*:\s*[\x27"]?([^\x27"\\s]+)[\x27"]?`. -/
def urlDictAt (t : Str) : Option Str :=
  match t with
  | [] => none
  | q :: rest =>
    if isQuoteChar q ∧ "url".toList.isPrefixOf (lowerL rest) then
      match rest.drop 3 with
      | [] => none
      | q2 :: r2 =>
        if isQuoteChar q2 then
          match r2.dropWhile isSpaceChar with
          | [] => none
          | c :: r3 =>
            if c = ':' then
              let r4 := r3.dropWhile isSpaceChar
              let r5 := if (r4.head?.map isQuoteChar).getD false then r4.drop 1 else r4
              let w := r5.takeWhile (fun ch => ¬ isUrlStop ch)
              if w.isEmpty then none else some w
            else none
        else none
    else none

/-- The `url_match` of llm.py lines 722-730: key-value style first, then
dict-style, both over `action_input`. -/
def findUrl (action_input : Str) : Option Str :=
  match scanFor urlKVAt action_input with
  | some v => some v
  | none => scanFor urlDictAt action_input

--==================================================
-- TEMPLATE-PLACEHOLDER PATTERNS (llm.py lines 599-613)
--==================================================

/-- A pattern of the shape `\[A.*?B.*?...\]` (IGNORECASE, no DOTALL) matches
iff some line of the lowercased text contains the pieces in order: `.` never
crosses a newline, so every candidate match lives inside one line. -/
def templateHit (pieces : List Str) (fa : Str) : Bool :=
  (splitLines (lowerL fa)).any (fun line => inOrderSeq pieces line)

/-- The seven template placeholder regexes of llm.py lines 599-607, rendered
as ordered piece lists. -/
def template_patterns : List (List Str) :=
  [["[list of".toList, "]".toList],
   ["[".toList, "query results".toList, "]".toList],
   ["[".toList, "names".toList, "]".toList],
   ["[".toList, "companies".toList, "]".toList],
   ["[hyperlink]".toList],
   ["[".toList, "data".toList, "]".toList],
   ["[".toList, "institutions".toList, "]".toList]]

/-- Number of template patterns that fire on a final answer; each hit appends
one corrective observation and bumps `iteration` once (the `continue` on
llm.py line 613 targets the `for` loop over patterns, not the `while`). -/
def templateCount (fa : Str) : Nat :=
  (template_patterns.filter (fun p => templateHit p fa)).length

--==================================================
-- ReAct TOOL EXECUTION (llm.py lines 433-474)
--==================================================

/-- A collaborator call that either returns or raises. -/
inductive PyRes (α : Type) where
  | ok (v : α)
  | exn (msg : Str)
deriving DecidableEq, Repr

/-- External collaborators of the two tool executors.  Rows are modelled by
their serialized JSON text; `genQueryEmbedding` returns `none` for a falsy
result (Python `None` or an empty list).  The fixed `limit=5` /
`threshold=0.2` arguments of `db.semantic_search` are part of the collaborator
and not repeated here. -/
structure ReactBackend where
  genQueryEmbedding : Str → Option (List Int)
  dbSemanticSearch : Str → List Int → PyRes (List Str)
  dbQuery : Str → PyRes (List Str)

/-- The `json.dumps({"results": results, "count": len(results)})` over
pre-serialized rows. -/
def dumpsResults (rows : List Str) : Str :=
  "\x7b\"results\": [".toList ++ joinSep ", ".toList rows
    ++ "], \"count\": ".toList ++ (Nat.repr rows.length).toList ++ "\x7d".toList

/-- Embedding of `execute_semantic_search` (llm.py lines 433-447): an empty or
missing query embedding and any database exception are rendered as
`Error: ...` observation strings; the function never raises. -/
def execute_semantic_search (B : ReactBackend) (table query : Str) : Str :=
  match B.genQueryEmbedding query with
  | none => "Error: Failed to generate query embedding".toList
  | some [] => "Error: Failed to generate query embedding".toList
  | some (x :: xs) =>
    match B.dbSemanticSearch table (x :: xs) with
    | .ok results => dumpsResults results
    | .exn e => "Error: ".toList ++ e

/-- Embedding of `execute_sql_query` (llm.py lines 449-458). -/
def execute_sql_query (B : ReactBackend) (sql : Str) : Str :=
  match B.dbQuery sql with
  | .ok results => dumpsResults results
  | .exn e => "Error: ".toList ++ e

--==================================================
-- ReAct LOOP STATE MACHINE (llm.py lines 559-796)
--==================================================

/-- The value of the local variable `message` inside
`handle_ai_chat_request_react`: initially the question text of the user; after a
`crawl_web` dispatch it is the `A2AMessage(sender="orchestrator",
recipient="web_crawler_agent", action="crawl_url", params={url: url})` object
built on llm.py lines 745-750. -/
inductive QVal where
  | text (s : Str)
  | a2aCrawlMsg (url : Str)
deriving DecidableEq, Repr

/-- Structured result of `crawler.handle_a2a_request` as consumed on llm.py
lines 756-767: a dict with `status == "success"`, a dict with an error, a
non-dict result (rendered), or a response message whose action is not
`"response"`. -/
inductive CrawlReply where
  | okDict (title : Str) (chunks : Nat)
  | errDict (err : Str)
  | nonDict (rendered : Str)
  | otherAction (act : Str)
deriving DecidableEq, Repr

/-- External collaborators of the ReAct loop.  `llm` models
`llm_client.send_message(prompt, conversation_history=[])`: the prompt is
`build_react_prompt(message, observations)`, a pure rendering of the question
value and the observation list, so the oracle receives exactly those two plus
the call ordinal (the remote completion endpoint may answer differently on
each call). -/
structure ReactEnv where
  llm : QVal → List Str → Nat → LLMResult
  backend : ReactBackend
  crawl : Str → CrawlReply

/-- The `MAX_ITERATIONS` (llm.py line 426). -/
def maxIterations : Nat := 10

/-- Mutable locals of the loop (llm.py lines 560-565), plus the `message`
variable that a `crawl_web` dispatch overwrites. -/
structure ReactState where
  iteration : Nat
  observations : List Str
  opTrace : List (Str × Str)
  toolsExecuted : List Str
  question : QVal
deriving DecidableEq, Repr

/-- Effect of one non-final-answer action dispatch (llm.py lines 640-775):
the observation line appended, the tool names appended to `tools_executed`,
the `operation_trace` entries, and the (possibly overwritten) question. -/
structure ActEffect where
  obsLine : Str
  tools : List Str
  trace : List (Str × Str)
  quest : QVal
deriving DecidableEq, Repr

/-- Dispatch of a parsed response that contains no final answer (llm.py lines
640-775).  Every branch appends exactly one observation line and bumps the
iteration counter by one; `semantic_search` and `sql_query` append their names
to `tools_executed` unconditionally, whatever observation string the executor
returned; `crawl_web` appends its name only on a success dict, and overwrites
the question variable with the A2A message whenever a URL was parsed. -/
def actEffect (B : ReactBackend) (crawl : Str → CrawlReply) (q : QVal) (t : Str) : ActEffect :=
  match findActionName t with
  | none =>
    ⟨"Observation: No valid action found. Please specify an Action.".toList, [], [], q⟩
  | some w =>
    let action_name := lowerL w
    let action_input := extractActionInput t
    if action_name = "semantic_search".toList then
      let args := semanticArgs action_input t
      ⟨"Observation: ".toList ++ execute_semantic_search B args.1 args.2,
       ["semantic_search".toList],
       [("semantic_search".toList, "table=".toList ++ args.1 ++ ", query=".toList ++ args.2)],
       q⟩
    else if action_name = "sql_query".toList then
      let sql := sqlArgOf action_input
      ⟨"Observation: ".toList ++ execute_sql_query B sql,
       ["sql_query".toList], [("sql_query".toList, sql)], q⟩
    else if action_name = "crawl_web".toList then
      match findUrl action_input with
      | none =>
        ⟨"Observation: Error: No URL provided for crawl_web action.".toList, [], [], q⟩
      | some url =>
        match crawl url with
        | .okDict title chunks =>
          ⟨"Observation: Web crawl completed: ".toList ++ title ++ " - ".toList
             ++ (Nat.repr chunks).toList ++ " chunks created".toList,
           ["crawl_web".toList], [], QVal.a2aCrawlMsg url⟩
        | .errDict e =>
          ⟨"Observation: Web crawl failed: ".toList ++ e, [], [], QVal.a2aCrawlMsg url⟩
        | .nonDict r =>
          ⟨"Observation: Web crawl response: ".toList ++ r, [], [], QVal.a2aCrawlMsg url⟩
        | .otherAction a =>
          ⟨"Observation: Error: Unexpected response from web crawler: ".toList ++ a,
           [], [], QVal.a2aCrawlMsg url⟩
    else
      ⟨"Observation: Error: Unknown action \x27".toList ++ action_name
         ++ "\x27. Available: semantic_search, sql_query, crawl_web".toList, [], [], q⟩

/-- Rendering of one `operation_trace` entry (llm.py lines 618-626). -/
def traceEntryText (e : Str × Str) : Str :=
  if e.1 = "sql_query".toList then "SQL: ".toList ++ e.2 ++ "\n".toList
  else if e.1 = "semantic_search".toList then "Semantic search: ".toList ++ e.2 ++ "\n".toList
  else if e.1 = "insertRows".toList then "CODE: db.insertRows(".toList ++ e.2 ++ ")\n".toList
  else if e.1 = "crawl_web".toList then "Web crawl: ".toList ++ e.2 ++ "\n".toList
  else []

/-- The `final_answer_with_trace` (llm.py lines 615-629): the answer, plus the
rendered operation trace when any operation was recorded. -/
def withTrace (fa : Str) (tr : List (Str × Str)) : Str :=
  if tr.isEmpty then fa
  else fa ++ "\n\n--- Operations performed ---\n".toList ++ (tr.map traceEntryText).flatten

/-- Terminal results of one ReAct run, mirroring the four return dicts of
llm.py (lines 576-579, 634-638, 783-788, 791-796). -/
inductive ReactOutcome where
  | llmError (err : Str)
  | answered (response : Str) (iterations : Nat)
  | exhaustedNoTools (obs : List Str)
  | exhaustedWithTools (obs : List Str)
deriving DecidableEq, Repr

/-- The `success` field of the returned dict. -/
def outcomeSuccess : ReactOutcome → Bool
  | .answered _ _ => true
  | _ => false

/-- The `iterations` field of the returned dict (absent on an LLM error). -/
def outcomeIterations : ReactOutcome → Option Nat
  | .llmError _ => none
  | .answered _ i => some i
  | .exhaustedNoTools _ => some maxIterations
  | .exhaustedWithTools _ => some maxIterations

/-- One pass of the `while` loop (llm.py lines 567-775): one model call, then
either a terminal return (`.inl`) or the next state (`.inr`).  In the
final-answer branch with a non-empty `tools_executed`, each matching template
pattern appends a corrective observation and bumps `iteration`, but the
`continue` of llm.py line 613 only advances the `for` loop over patterns, so
control falls through and the answer is returned as a SUCCESS; the appended
observations are dead (never rendered into a later prompt) and only the
iteration bumps are visible, in the returned `iterations` count. -/
def reactPass (env : ReactEnv) (st : ReactState) : ReactOutcome ⊕ ReactState :=
  let result := env.llm st.question st.observations st.iteration
  if result.success then
    let response_text := stripL result.response
    if hasFinalAnswer response_text then
      let final_answer := finalAnswerText response_text
      if st.toolsExecuted.isEmpty then
        .inr { st with
          observations := st.observations
            ++ ["Observation: ERROR: You must execute at least one tool (semantic_search, sql_query, or crawl_web) before providing a Final Answer. Do not skip tool execution.".toList],
          iteration := st.iteration + 1 }
      else
        .inl (.answered (withTrace final_answer st.opTrace)
          (st.iteration + templateCount final_answer + 1))
    else
      let e := actEffect env.backend env.crawl st.question response_text
      .inr { iteration := st.iteration + 1,
             observations := st.observations ++ [e.obsLine],
             opTrace := st.opTrace ++ e.trace,
             toolsExecuted := st.toolsExecuted ++ e.tools,
             question := e.quest }
  else .inl (.llmError result.error)

/-- The two exhaustion returns (llm.py lines 777-796). -/
def exhaustResult (st : ReactState) : ReactOutcome :=
  if st.toolsExecuted.isEmpty then .exhaustedNoTools st.observations
  else .exhaustedWithTools st.observations

/-- The `while iteration < MAX_ITERATIONS` loop, driven by fuel.  Every
continuing pass increments `iteration` by exactly one
(`reactPass_inr_iteration` below), so with `fuel = maxIterations - iteration`
the fuel-out condition coincides with the loop guard. -/
def reactLoop (env : ReactEnv) : Nat → ReactState → ReactOutcome
  | 0, st => exhaustResult st
  | fuel + 1, st =>
    match reactPass env st with
    | .inl out => out
    | .inr st2 => reactLoop env fuel st2

/-- Embedding of `handle_ai_chat_request_react` (llm.py lines 402-796). -/
def handle_ai_chat_request_react (env : ReactEnv) (message : Str) : ReactOutcome :=
  reactLoop env maxIterations ⟨0, [], [], [], QVal.text message⟩

def demoBackend : ReactBackend :=
  { genQueryEmbedding := fun _ => none,
    dbSemanticSearch := fun _ _ => .exn "boom".toList,
    dbQuery := fun _ => .ok ["\x7b\"name\": \"Acme\"\x7d".toList] }

def envPlaceholderRun : ReactEnv :=
  { llm := fun _ _ i =>
      if i = 0 then ⟨true, "Action: sql_query\nAction Input: SELECT name FROM institutions".toList, []⟩
      else ⟨true, "Final Answer: The companies are [list of companies].".toList, []⟩,
    backend := demoBackend,
    crawl := fun _ => .otherAction "x".toList }

def envErrorToolRun : ReactEnv :=
  { llm := fun _ _ i =>
      if i = 0 then ⟨true, "Action: sql_query\nAction Input: SELECT x FROM skills".toList, []⟩
      else ⟨true, "Final Answer: You have no skills recorded.".toList, []⟩,
    backend :=
      { genQueryEmbedding := fun _ => none,
        dbSemanticSearch := fun _ _ => .exn "nope".toList,
        dbQuery := fun _ => .exn "relation skills does not exist".toList },
    crawl := fun _ => .otherAction "x".toList }

def envCrawlRun : ReactEnv :=
  { llm := fun q _ _ =>
      match q with
      | .text _ => ⟨true, "Action: crawl_web\nAction Input: url=http://x.edu".toList, []⟩
      | .a2aCrawlMsg _ => ⟨true, "Final Answer: crawled.".toList, []⟩,
    backend := demoBackend,
    crawl := fun _ => .okDict "X Site".toList 3 }

def envNonTerminalRun : ReactEnv :=
  { llm := fun _ _ _ => ⟨true, "Thought: I am stuck.".toList, []⟩,
    backend := demoBackend,
    crawl := fun _ => .otherAction "x".toList }

--==================================================
-- PLAN-AND-EXECUTE ORCHESTRATOR (llm.py, `execute_orchestrator_response`,
-- lines 803-1014)
--==================================================

/-- Python literal values as `ast.literal_eval` can produce them in this
call: strings and bytes (as character lists), integers, float and complex
literals (kept as their literal text — only their identity as non-list
constants matters to the orchestrator, so no floating-point arithmetic is
modelled), booleans, `None`, the `...` constant, and the four containers. -/
inductive PyLit where
  | str (s : Str)
  | bytesLit (s : Str)
  | num (n : Int)
  | floatLit (text : Str)
  | complexLit (text : Str)
  | boolLit (b : Bool)
  | noneLit
  | ellipsisLit
  | list (xs : List PyLit)
  | tuple (xs : List PyLit)
  | setLit (xs : List PyLit)
  | dict (entries : List (PyLit × PyLit))

/-- Decimal digits to a natural number. -/
def digitsToNat (ds : Str) : Nat :=
  ds.foldl (fun acc c => acc * 10 + (c.toNat - 48)) 0

/-- Hexadecimal digit test. -/
def isHexDigit (c : Char) : Bool :=
  c.isDigit || (97 ≤ c.toNat && c.toNat ≤ 102) || (65 ≤ c.toNat && c.toNat ≤ 70)

/-- Value of one hexadecimal digit. -/
def hexVal (c : Char) : Nat :=
  if c.isDigit then c.toNat - 48
  else if 97 ≤ c.toNat then c.toNat - 87
  else c.toNat - 55

/-- Octal digit test. -/
def isOctDigit (c : Char) : Bool := 48 ≤ c.toNat && c.toNat ≤ 55

/-- Binary digit test. -/
def isBinDigit (c : Char) : Bool := c = '0' || c = '1'

/-- Hexadecimal digits to a natural number. -/
def hexToNat (ds : Str) : Nat := ds.foldl (fun a c => a * 16 + hexVal c) 0

/-- Octal digits to a natural number. -/
def octToNat (ds : Str) : Nat := ds.foldl (fun a c => a * 8 + (c.toNat - 48)) 0

/-- Binary digits to a natural number. -/
def binToNat (ds : Str) : Nat := ds.foldl (fun a c => a * 2 + (c.toNat - 48)) 0

/-- Scan a run of digits that may contain single underscore separators
strictly between digits, as Python number lexing allows (`1_000`).  Returns
the digits with underscores removed, the raw consumed text, and the rest;
`none` when the run is empty or an underscore is misplaced. -/
def scanDigitGroup (isDig : Char → Bool) (t : Str) : Option (Str × Str × Str) :=
  let raw := t.takeWhile (fun c => isDig c || c = '_')
  if raw.isEmpty then none
  else if raw.head? = some '_' ∨ raw.getLast? = some '_' ∨ containsSeq "__".toList raw then none
  else some (raw.filter (fun c => ¬ c = '_'), raw, t.drop raw.length)

/-- Completion of a decimal numeric scan after the integer and fraction
parts: optional exponent, optional imaginary `j` suffix.  A decimal INTEGER
with leading zeros is legal only when its value is zero (Python raises on
`01` but accepts `00` and `01.5`); an exponent or `j` marker with invalid
digits is simply not consumed — the leftover then fails in every
surrounding context, matching the Python raise. -/
def finishDecimal (hasDot : Bool) (ipClean ipRaw fpRaw : Str) (t : Str) : Option (PyLit × Str) :=
  let expScan : Str × Str :=
    match t with
    | e :: r =>
      if e = 'e' ∨ e = 'E' then
        match r with
        | sgn :: r2 =>
          if sgn = '+' ∨ sgn = '-' then
            match scanDigitGroup Char.isDigit r2 with
            | some (_, raw, rr) => (e :: sgn :: raw, rr)
            | none => ([], t)
          else
            match scanDigitGroup Char.isDigit r with
            | some (_, raw, rr) => (e :: raw, rr)
            | none => ([], t)
        | [] => ([], t)
      else ([], t)
    | [] => ([], t)
  let expRaw := expScan.1
  let r3 := expScan.2
  let jScan : Str × Str :=
    match r3 with
    | c :: r => if c = 'j' ∨ c = 'J' then ([c], r) else ([], r3)
    | [] => ([], r3)
  let jRaw := jScan.1
  let r4 := jScan.2
  if ¬ hasDot ∧ expRaw.isEmpty ∧ jRaw.isEmpty then
    if 1 < ipClean.length ∧ ipClean.head? = some '0' ∧ ipClean.any (fun d => ¬ d = '0') then none
    else some (.num (digitsToNat ipClean), r4)
  else
    let text := ipRaw ++ (if hasDot then '.' :: fpRaw else []) ++ expRaw
    if jRaw.isEmpty then some (.floatLit text, r4)
    else some (.complexLit (text ++ jRaw), r4)

/-- Scan an unsigned decimal numeric literal: optional integer digits, an
optional fraction (both may not be absent together), then exponent and `j`
suffix via `finishDecimal`. -/
def scanDecimal (t : Str) : Option (PyLit × Str) :=
  match scanDigitGroup Char.isDigit t with
  | some (ipClean, ipRaw, r1) =>
    (match r1 with
     | '.' :: r =>
       (match scanDigitGroup Char.isDigit r with
        | some (fpClean, fpRaw, r2) =>
          let _ := fpClean
          finishDecimal true ipClean ipRaw fpRaw r2
        | none => finishDecimal true ipClean ipRaw [] r)
     | _ => finishDecimal false ipClean ipRaw [] r1)
  | none =>
    match t with
    | '.' :: r =>
      (match scanDigitGroup Char.isDigit r with
       | some (_, fpRaw, r2) => finishDecimal true [] [] fpRaw r2
       | none => none)
    | _ => none

/-- Scan one unsigned numeric literal: hex, octal and binary integers, or a
decimal number. -/
def scanNumberCore (t : Str) : Option (PyLit × Str) :=
  match t with
  | '0' :: c :: rest =>
    if c = 'x' ∨ c = 'X' then
      match scanDigitGroup isHexDigit rest with
      | some (ds, _, r) => some (.num (hexToNat ds), r)
      | none => none
    else if c = 'o' ∨ c = 'O' then
      match scanDigitGroup isOctDigit rest with
      | some (ds, _, r) => some (.num (octToNat ds), r)
      | none => none
    else if c = 'b' ∨ c = 'B' then
      match scanDigitGroup isBinDigit rest with
      | some (ds, _, r) => some (.num (binToNat ds), r)
      | none => none
    else scanDecimal t
  | _ => scanDecimal t

/-- A unary sign applied to a numeric literal. -/
def applySign (sgn : Char) : PyLit → PyLit
  | .num n => .num (if sgn = '-' then -n else n)
  | .floatLit tx => .floatLit (sgn :: tx)
  | .complexLit tx => .complexLit (sgn :: tx)
  | v => v

/-- Python allows exactly one binary `+` or `-` between a real literal and a
bare imaginary literal (a complex constant such as `1+2j`); any other
operand combination raises.  When no such join applies, the left value is
returned with the operator unconsumed, and every surrounding context then
fails on the leftover, matching the raise. -/
def joinComplex (v : PyLit) (r : Str) : PyLit × Str :=
  match v with
  | .num n =>
    (match r.dropWhile isSpaceChar with
     | op :: r2 =>
       if op = '+' ∨ op = '-' then
         match scanNumberCore (r2.dropWhile isSpaceChar) with
         | some (.complexLit tx, r3) => (.complexLit ((Int.repr n).toList ++ op :: tx), r3)
         | _ => (.num n, r)
       else (.num n, r)
     | [] => (.num n, r))
  | .floatLit ltx =>
    (match r.dropWhile isSpaceChar with
     | op :: r2 =>
       if op = '+' ∨ op = '-' then
         match scanNumberCore (r2.dropWhile isSpaceChar) with
         | some (.complexLit tx, r3) => (.complexLit (ltx ++ op :: tx), r3)
         | _ => (.floatLit ltx, r)
       else (.floatLit ltx, r)
     | [] => (.floatLit ltx, r))
  | other => (other, r)

/-- Match a keyword literal with a word boundary: `None` must not be the
prefix of a longer identifier. -/
def scanKeyword (kw t : Str) : Option Str :=
  if kw.isPrefixOf t then
    let r := t.drop kw.length
    match r.head? with
    | some c => if isWordChar c then none else some r
    | none => some r
  else none

/-- String-literal prefix letters before the opening quote: none, `r`, `b`,
`u`, or a two-letter mix of `r` and `b`, case-insensitive (Python rejects
other mixes such as `ub`).  Returns whether the literal is bytes, whether it
is raw, and the rest starting at the quote. -/
def strLitTag (t : Str) : Option (Bool × Bool × Str) :=
  match t with
  | [] => none
  | c :: rest =>
    if isQuoteChar c then some (false, false, t)
    else
      let l := c.toLower
      if l = 'u' then
        (match rest with
         | q :: _ => if isQuoteChar q then some (false, false, rest) else none
         | [] => none)
      else if l = 'r' ∨ l = 'b' then
        match rest with
        | [] => none
        | c2 :: rest2 =>
          if isQuoteChar c2 then some (l = 'b', l = 'r', rest)
          else
            let l2 := c2.toLower
            if (l = 'r' ∧ l2 = 'b') ∨ (l = 'b' ∧ l2 = 'r') then
              match rest2 with
              | q :: _ => if isQuoteChar q then some (true, true, rest2) else none
              | [] => none
            else none
      else none

/-- Backslash escapes of cooked string literals: the known single-character
escapes map to their character, a backslash-newline pair disappears, octal
digits take up to three, `\x` takes exactly two hex digits, `\u` four and
`\U` eight, `\N` consumes a braced name and yields a placeholder character
(the model carries no Unicode name table; only parse success matters to the
caller), and any other escaped character keeps the backslash, as Python
does.  Returns the produced characters and the rest. -/
def scanEscape : Str → Option (Str × Str)
  | [] => none
  | e :: r =>
    if e = 'n' then some (['\n'], r)
    else if e = 't' then some (['\t'], r)
    else if e = 'r' then some (['\r'], r)
    else if e = 'a' then some (['\x07'], r)
    else if e = 'b' then some (['\x08'], r)
    else if e = 'f' then some (['\x0c'], r)
    else if e = 'v' then some (['\x0b'], r)
    else if e = '\\' then some (['\\'], r)
    else if isQuoteChar e then some ([e], r)
    else if e = '\n' then some ([], r)
    else if isOctDigit e then
      match r with
      | o2 :: rest2 =>
        if isOctDigit o2 then
          match rest2 with
          | o3 :: rest3 =>
            if isOctDigit o3 then some ([Char.ofNat (octToNat [e, o2, o3])], rest3)
            else some ([Char.ofNat (octToNat [e, o2])], rest2)
          | [] => some ([Char.ofNat (octToNat [e, o2])], [])
        else some ([Char.ofNat (octToNat [e])], r)
      | [] => some ([Char.ofNat (octToNat [e])], [])
    else if e = 'x' then
      match r with
      | h1 :: h2 :: rr =>
        if isHexDigit h1 ∧ isHexDigit h2 then
          some ([Char.ofNat (hexToNat [h1, h2])], rr)
        else none
      | _ => none
    else if e = 'u' then
      match r with
      | h1 :: h2 :: h3 :: h4 :: rr =>
        if isHexDigit h1 ∧ isHexDigit h2 ∧ isHexDigit h3 ∧ isHexDigit h4 then
          some ([Char.ofNat (hexToNat [h1, h2, h3, h4])], rr)
        else none
      | _ => none
    else if e = 'U' then
      match r with
      | h1 :: h2 :: h3 :: h4 :: h5 :: h6 :: h7 :: h8 :: rr =>
        if isHexDigit h1 ∧ isHexDigit h2 ∧ isHexDigit h3 ∧ isHexDigit h4
            ∧ isHexDigit h5 ∧ isHexDigit h6 ∧ isHexDigit h7 ∧ isHexDigit h8 then
          some ([Char.ofNat (hexToNat [h1, h2, h3, h4, h5, h6, h7, h8])], rr)
        else none
      | _ => none
    else if e = 'N' then
      match r with
      | '\x7b' :: rr =>
        (match splitAtChar '\x7d' rr with
         | some nm => some (['\x1a'], rr.drop (nm.length + 1))
         | none => none)
      | _ => none
    else some (['\\', e], r)

/-- Body of a single-line string literal up to the closing quote: a bare
newline is illegal; in a raw literal each backslash keeps itself and the
following character (so an escaped quote does not terminate, and an escaped
newline stays). -/
def scanStrBody (raw : Bool) (q : Char) : Nat → Str → Option (Str × Str)
  | 0, _ => none
  | _, [] => none
  | fuel + 1, c :: rest =>
    if c = q then some ([], rest)
    else if c = '\n' then none
    else if c = '\\' then
      if raw then
        match rest with
        | e :: r2 => (scanStrBody raw q fuel r2).map (fun p => ('\\' :: e :: p.1, p.2))
        | [] => none
      else
        match scanEscape rest with
        | some (out, r2) => (scanStrBody raw q fuel r2).map (fun p => (out ++ p.1, p.2))
        | none => none
    else (scanStrBody raw q fuel rest).map (fun p => (c :: p.1, p.2))

/-- Body of a triple-quoted string literal: terminated by three quotes in a
row, newlines allowed. -/
def scanStrBody3 (raw : Bool) (q : Char) : Nat → Str → Option (Str × Str)
  | 0, _ => none
  | _, [] => none
  | fuel + 1, c :: rest =>
    if c = q ∧ rest.take 2 = [q, q] then some ([], rest.drop 2)
    else if c = '\\' then
      if raw then
        match rest with
        | e :: r2 => (scanStrBody3 raw q fuel r2).map (fun p => ('\\' :: e :: p.1, p.2))
        | [] => none
      else
        match scanEscape rest with
        | some (out, r2) => (scanStrBody3 raw q fuel r2).map (fun p => (out ++ p.1, p.2))
        | none => none
    else (scanStrBody3 raw q fuel rest).map (fun p => (c :: p.1, p.2))

/-- One string or bytes literal: prefix letters, then a single- or
triple-quoted body.  Returns whether it is bytes, the content, and the
rest. -/
def scanStrLit (fuel : Nat) (t : Str) : Option (Bool × Str × Str) :=
  match strLitTag t with
  | none => none
  | some (isB, isR, tq) =>
    match tq with
    | [] => none
    | q :: rest =>
      if rest.take 2 = [q, q] then
        (scanStrBody3 isR q fuel (rest.drop 2)).map (fun p => (isB, p.1, p.2))
      else
        (scanStrBody isR q fuel rest).map (fun p => (isB, p.1, p.2))

/-- Implicit concatenation of adjacent string literals of the same kind
(Python joins them; mixing bytes and str raises — the second literal is then
left unconsumed and the surrounding context fails). -/
def scanStrConcat : Nat → Bool → Str → Str → Str × Str
  | 0, _, acc, t => (acc, t)
  | fuel + 1, isB, acc, t =>
    match scanStrLit fuel (t.dropWhile isSpaceChar) with
    | some (isB2, s, r) =>
      if isB2 = isB then scanStrConcat fuel isB (acc ++ s) r else (acc, t)
    | none => (acc, t)

mutual

/-- Hashability of a literal value as Python requires of set elements and
dict keys: lists, sets and dicts are unhashable, a tuple is hashable when
all its elements are (an unhashable element makes `literal_eval` raise,
which the caller swallows like a parse failure).  Fuel bounds the depth;
the parser always supplies more fuel than the input length. -/
def pyHashableF : Nat → PyLit → Bool
  | 0, _ => false
  | fuel + 1, v =>
    match v with
    | .list _ => false
    | .setLit _ => false
    | .dict _ => false
    | .tuple xs => pyHashableListF fuel xs
    | _ => true

/-- All elements hashable. -/
def pyHashableListF : Nat → List PyLit → Bool
  | 0, _ => false
  | _ + 1, [] => true
  | fuel + 1, x :: xs => pyHashableF fuel x && pyHashableListF fuel xs

end

mutual

/-- Fuel-driven recursive-descent parser for one Python literal expression;
see `pyLiteralEval` for the covered fragment. -/
def parseLitVal : Nat → Str → Option (PyLit × Str)
  | 0, _ => none
  | fuel + 1, t0 =>
    let t := t0.dropWhile isSpaceChar
    match t with
    | [] => none
    | c :: rest =>
      if c = '[' then
        match parseSeqItems fuel ']' false [] rest with
        | some (xs, _, r) => some (.list xs, r)
        | none => none
      else if c = '(' then
        match parseSeqItems fuel ')' false [] rest with
        | some ([], _, r) => some (.tuple [], r)
        | some ([x], false, r) => some (x, r)
        | some (xs, _, r) => some (.tuple xs, r)
        | none => none
      else if c = '\x7b' then parseBraced fuel rest
      else if c = '.' ∧ rest.take 2 = ['.', '.'] then some (.ellipsisLit, rest.drop 2)
      else if c = '+' ∨ c = '-' then
        (match scanNumberCore (rest.dropWhile isSpaceChar) with
         | some (v, r) => some (joinComplex (applySign c v) r)
         | none => none)
      else if c.isDigit ∨ (c = '.' ∧ (rest.head?.map Char.isDigit).getD false) then
        (match scanNumberCore t with
         | some (v, r) => some (joinComplex v r)
         | none => none)
      else
        match scanKeyword "None".toList t with
        | some r => some (.noneLit, r)
        | none =>
          match scanKeyword "True".toList t with
          | some r => some (.boolLit true, r)
          | none =>
            match scanKeyword "False".toList t with
            | some r => some (.boolLit false, r)
            | none =>
              match scanStrLit fuel t with
              | some (isB, str1, r) =>
                let joined := scanStrConcat fuel isB str1 r
                some (if isB then .bytesLit joined.1 else .str joined.1, joined.2)
              | none => none

/-- Items of a bracketed sequence up to `closeC`, with an optional trailing
comma; also reports whether any comma was seen, which distinguishes the
parenthesized value `(1)` from the one-element tuple `(1,)`. -/
def parseSeqItems : Nat → Char → Bool → List PyLit → Str → Option (List PyLit × Bool × Str)
  | 0, _, _, _, _ => none
  | fuel + 1, closeC, sawComma, acc, t0 =>
    let t := t0.dropWhile isSpaceChar
    match t with
    | [] => none
    | c :: r =>
      if c = closeC then some (acc.reverse, sawComma, r)
      else
        match parseLitVal fuel t with
        | some (v, r2) =>
          (match r2.dropWhile isSpaceChar with
           | ',' :: r3 => parseSeqItems fuel closeC true (v :: acc) r3
           | c2 :: r3 => if c2 = closeC then some ((v :: acc).reverse, sawComma, r3) else none
           | [] => none)
        | none => none

/-- Brace literals, entered after the opening brace: `` `{}` `` is an empty
dict; otherwise the character after the first value decides between dict
and set.  Set elements and dict keys must be hashable. -/
def parseBraced : Nat → Str → Option (PyLit × Str)
  | 0, _ => none
  | fuel + 1, t0 =>
    let t := t0.dropWhile isSpaceChar
    match t with
    | '\x7d' :: r => some (.dict [], r)
    | _ =>
      match parseLitVal fuel t with
      | none => none
      | some (k, r) =>
        match r.dropWhile isSpaceChar with
        | ':' :: r2 =>
          (match parseLitVal fuel r2 with
           | none => none
           | some (v, r3) =>
             if pyHashableF fuel k then parseDictItems fuel [(k, v)] r3 else none)
        | ',' :: r2 =>
          (match parseSeqItems fuel '\x7d' true [k] r2 with
           | some (xs, _, r3) =>
             if pyHashableListF fuel xs then some (.setLit xs, r3) else none
           | none => none)
        | '\x7d' :: r2 =>
          if pyHashableF fuel k then some (.setLit [k], r2) else none
        | _ => none

/-- Remaining `key: value` entries of a dict literal, with an optional
trailing comma. -/
def parseDictItems : Nat → List (PyLit × PyLit) → Str → Option (PyLit × Str)
  | 0, _, _ => none
  | fuel + 1, acc, t0 =>
    let t := t0.dropWhile isSpaceChar
    match t with
    | '\x7d' :: r => some (.dict acc.reverse, r)
    | ',' :: r =>
      (match r.dropWhile isSpaceChar with
       | '\x7d' :: r2 => some (.dict acc.reverse, r2)
       | r2 =>
         match parseLitVal fuel r2 with
         | none => none
         | some (k, r3) =>
           match r3.dropWhile isSpaceChar with
           | ':' :: r4 =>
             (match parseLitVal fuel r4 with
              | none => none
              | some (v, r5) =>
                if pyHashableF fuel k then parseDictItems fuel ((k, v) :: acc) r5 else none)
           | _ => none)
    | _ => none

end

theorem reactPass_eq_llmError {env : ReactEnv} {st : ReactState}
    (hs : (env.llm st.question st.observations st.iteration).success = false) :
    reactPass env st = .inl (.llmError (env.llm st.question st.observations st.iteration).error) := by
  unfold reactPass
  simp [hs]

theorem reactPass_eq_reject {env : ReactEnv} {st : ReactState}
    (hs : (env.llm st.question st.observations st.iteration).success = true)
    (hfa : hasFinalAnswer (stripL (env.llm st.question st.observations st.iteration).response) = true)
    (ht : st.toolsExecuted = []) :
    reactPass env st = .inr { st with
      observations := st.observations
        ++ ["Observation: ERROR: You must execute at least one tool (semantic_search, sql_query, or crawl_web) before providing a Final Answer. Do not skip tool execution.".toList],
      iteration := st.iteration + 1 } := by
  unfold reactPass
  simp [hs, hfa, ht]

theorem reactPass_eq_answered {env : ReactEnv} {st : ReactState}
    (hs : (env.llm st.question st.observations st.iteration).success = true)
    (hfa : hasFinalAnswer (stripL (env.llm st.question st.observations st.iteration).response) = true)
    (ht : st.toolsExecuted ≠ []) :
    reactPass env st = .inl (.answered
      (withTrace (finalAnswerText (stripL (env.llm st.question st.observations st.iteration).response)) st.opTrace)
      (st.iteration + templateCount (finalAnswerText (stripL (env.llm st.question st.observations st.iteration).response)) + 1)) := by
  unfold reactPass
  simp [hs, hfa, List.isEmpty_iff, ht]

theorem reactPass_eq_act {env : ReactEnv} {st : ReactState}
    (hs : (env.llm st.question st.observations st.iteration).success = true)
    (hfa : hasFinalAnswer (stripL (env.llm st.question st.observations st.iteration).response) = false) :
    reactPass env st =
      (let e := actEffect env.backend env.crawl st.question
         (stripL (env.llm st.question st.observations st.iteration).response)
       .inr { iteration := st.iteration + 1,
              observations := st.observations ++ [e.obsLine],
              opTrace := st.opTrace ++ e.trace,
              toolsExecuted := st.toolsExecuted ++ e.tools,
              question := e.quest }) := by
  unfold reactPass
  simp [hs, hfa]

theorem reactPass_inr_iteration {env : ReactEnv} {st st' : ReactState}
    (h : reactPass env st = .inr st') : st'.iteration = st.iteration + 1 := by
  by_cases hs : (env.llm st.question st.observations st.iteration).success = true
  · by_cases hfa : hasFinalAnswer (stripL (env.llm st.question st.observations st.iteration).response) = true
    · by_cases ht : st.toolsExecuted = []
      · rw [reactPass_eq_reject hs hfa ht] at h
        simp only [Sum.inr.injEq] at h
        subst h
        rfl
      · rw [reactPass_eq_answered hs hfa ht] at h
        simp at h
    · rw [reactPass_eq_act hs (by simpa using hfa)] at h
      simp only [Sum.inr.injEq] at h
      subst h
      rfl
  · rw [reactPass_eq_llmError (by simpa using hs)] at h
    simp at h

theorem reactPass_answered_tools {env : ReactEnv} {st : ReactState} {r : Str} {i : Nat}
    (h : reactPass env st = .inl (.answered r i)) :
    st.toolsExecuted ≠ [] ∧ st.iteration + 1 ≤ i := by
  by_cases hs : (env.llm st.question st.observations st.iteration).success = true
  · by_cases hfa : hasFinalAnswer (stripL (env.llm st.question st.observations st.iteration).response) = true
    · by_cases ht : st.toolsExecuted = []
      · rw [reactPass_eq_reject hs hfa ht] at h
        simp at h
      · rw [reactPass_eq_answered hs hfa ht] at h
        simp only [Sum.inl.injEq, ReactOutcome.answered.injEq] at h
        exact ⟨ht, by omega⟩
    · rw [reactPass_eq_act hs (by simpa using hfa)] at h
      simp at h
  · rw [reactPass_eq_llmError (by simpa using hs)] at h
    simp at h

theorem exhaustResult_ne_answered {st : ReactState} {r : Str} {i : Nat} :
    exhaustResult st ≠ .answered r i := by
  unfold exhaustResult
  split <;> simp

theorem reactLoop_answered_min_iterations {env : ReactEnv} {r : Str} {i : Nat} :
    ∀ (fuel : Nat) (st : ReactState), (st.toolsExecuted ≠ [] → 1 ≤ st.iteration) →
    reactLoop env fuel st = .answered r i → 2 ≤ i := by
  intro fuel
  induction fuel with
  | zero =>
    intro st _ h
    exact absurd h exhaustResult_ne_answered
  | succ fuel ih =>
    intro st hinv h
    unfold reactLoop at h
    cases hp : reactPass env st with
    | inl out =>
      rw [hp] at h
      subst h
      obtain ⟨ht, hi⟩ := reactPass_answered_tools hp
      have := hinv ht
      omega
    | inr st2 =>
      rw [hp] at h
      have h2 := reactPass_inr_iteration hp
      exact ih st2 (fun _ => by omega) h

theorem reactPass_llm_congr {env : ReactEnv} {llm2 : QVal → List Str → Nat → LLMResult}
    {st : ReactState}
    (h : llm2 st.question st.observations st.iteration
       = env.llm st.question st.observations st.iteration) :
    reactPass { env with llm := llm2 } st = reactPass env st := by
  unfold reactPass
  rw [show ({ env with llm := llm2 } : ReactEnv).llm st.question st.observations st.iteration
        = env.llm st.question st.observations st.iteration from h]

theorem reactLoop_llm_agree {env : ReactEnv} {llm2 : QVal → List Str → Nat → LLMResult} :
    ∀ (fuel : Nat) (st : ReactState),
    (∀ qv o i, i < st.iteration + fuel → llm2 qv o i = env.llm qv o i) →
    reactLoop { env with llm := llm2 } fuel st = reactLoop env fuel st := by
  intro fuel
  induction fuel with
  | zero => intro st _; rfl
  | succ fuel ih =>
    intro st hagree
    unfold reactLoop
    have hp : reactPass { env with llm := llm2 } st = reactPass env st :=
      reactPass_llm_congr (hagree st.question st.observations st.iteration (by omega))
    rw [hp]
    cases hr : reactPass env st with
    | inl out => rfl
    | inr st2 =>
      have h2 := reactPass_inr_iteration hr
      exact ih st2 (fun qv o i hi => hagree qv o i (by omega))

theorem reactLoop_nonterminal_exhausts {env : ReactEnv}
    (hs : ∀ qv o i, (env.llm qv o i).success = true)
    (hfa : ∀ qv o i, hasFinalAnswer (stripL (env.llm qv o i).response) = false) :
    ∀ (fuel : Nat) (st : ReactState), ∃ st', reactLoop env fuel st = exhaustResult st' := by
  intro fuel
  induction fuel with
  | zero => intro st; exact ⟨st, rfl⟩
  | succ fuel ih =>
    intro st
    unfold reactLoop
    rw [reactPass_eq_act (hs st.question st.observations st.iteration)
      (hfa st.question st.observations st.iteration)]
    exact ih _

theorem actEffect_semantic {B : ReactBackend} {cr : Str → CrawlReply} {q : QVal} {t w : Str}
    (h1 : findActionName t = some w) (h2 : lowerL w = "semantic_search".toList) :
    actEffect B cr q t =
      ⟨"Observation: ".toList
         ++ execute_semantic_search B (semanticArgs (extractActionInput t) t).1
              (semanticArgs (extractActionInput t) t).2,
       ["semantic_search".toList],
       [("semantic_search".toList,
         "table=".toList ++ (semanticArgs (extractActionInput t) t).1
           ++ ", query=".toList ++ (semanticArgs (extractActionInput t) t).2)],
       q⟩ := by
  unfold actEffect
  rw [h1]
  dsimp only
  rw [h2]
  simp

theorem actEffect_sql {B : ReactBackend} {cr : Str → CrawlReply} {q : QVal} {t w : Str}
    (h1 : findActionName t = some w) (h2 : lowerL w = "sql_query".toList) :
    actEffect B cr q t =
      ⟨"Observation: ".toList ++ execute_sql_query B (sqlArgOf (extractActionInput t)),
       ["sql_query".toList],
       [("sql_query".toList, sqlArgOf (extractActionInput t))],
       q⟩ := by
  unfold actEffect
  rw [h1]
  dsimp only
  rw [h2, if_neg (by decide), if_pos rfl]

theorem actEffect_crawl_quest {B : ReactBackend} {cr : Str → CrawlReply} {q : QVal} {t w url : Str}
    (h1 : findActionName t = some w) (h2 : lowerL w = "crawl_web".toList)
    (h3 : findUrl (extractActionInput t) = some url) :
    (actEffect B cr q t).quest = QVal.a2aCrawlMsg url := by
  unfold actEffect
  rw [h1]
  dsimp only
  rw [h2, if_neg (by decide), if_neg (by decide), if_pos rfl, h3]
  dsimp only
  cases cr url <;> rfl

theorem actEffect_quest_cases {B : ReactBackend} {cr : Str → CrawlReply} {q : QVal} {t : Str} :
    (actEffect B cr q t).quest = q ∨ ∃ u, (actEffect B cr q t).quest = QVal.a2aCrawlMsg u := by
  unfold actEffect
  rcases findActionName t with _ | w
  · left; rfl
  · dsimp only
    split
    · left; rfl
    · split
      · left; rfl
      · split
        · rcases hu : findUrl (extractActionInput t) with _ | u
          · left; rfl
          · right
            refine ⟨u, ?_⟩
            dsimp only
            cases cr u <;> rfl
        · left; rfl

--==================================================
-- SUBSTRING LEMMAS (for the risk-gate claim)
--==================================================

theorem containsSeq_nil (t : Str) : containsSeq [] t = true := by
  induction t with
  | nil => rfl
  | cons c rest ih => simp [containsSeq, List.isPrefixOf]

theorem isPrefixOf_append_self (a b : Str) : a.isPrefixOf (a ++ b) = true := by
  induction a with
  | nil => simp [List.isPrefixOf]
  | cons c rest ih => simp [List.isPrefixOf, ih]

theorem containsSeq_self_append (n b : Str) : containsSeq n (n ++ b) = true := by
  cases n with
  | nil => exact containsSeq_nil b
  | cons c rest =>
    simp only [containsSeq, List.cons_append, Bool.or_eq_true]
    left
    exact isPrefixOf_append_self (c :: rest) b

theorem containsSeq_append_right {n b : Str} (h : containsSeq n b = true) (a : Str) :
    containsSeq n (a ++ b) = true := by
  induction a with
  | nil => simpa using h
  | cons c rest ih => simp [containsSeq, ih]

theorem containsSeq_append_left {n a : Str} (h : containsSeq n a = true) (b : Str) :
    containsSeq n (a ++ b) = true := by
  induction a with
  | nil =>
    simp only [containsSeq] at h
    simp only [List.nil_append]
    rw [List.isEmpty_iff] at h
    subst h
    exact containsSeq_nil b
  | cons c rest ih =>
    simp only [containsSeq, Bool.or_eq_true] at h
    rcases h with h | h
    · simp only [List.cons_append, containsSeq, Bool.or_eq_true]
      left
      rcases List.isPrefixOf_iff_prefix.mp h with ⟨tail, htail⟩
      rw [ List.isPrefixOf_iff_prefix]
      refine ⟨tail ++ b, ?_⟩
      rw [← List.append_assoc, htail]
      simp
    · simp only [List.cons_append, containsSeq, Bool.or_eq_true]
      right
      exact ih h

theorem containsSeq_joinSep {kw : Str} {l : List Str} (h : kw ∈ l) (sep : Str) :
    containsSeq kw (joinSep sep l) = true := by
  induction l with
  | nil => cases h
  | cons x xs ih =>
    rcases List.mem_cons.mp h with h | h
    · subst h
      cases xs with
      | nil =>
        have := containsSeq_self_append kw []
        simpa [joinSep] using this
      | cons y ys =>
        simp only [joinSep]
        rw [List.append_assoc]
        exact containsSeq_self_append kw _
    · cases xs with
      | nil => cases h
      | cons y ys =>
        simp only [joinSep]
        rw [List.append_assoc]
        exact containsSeq_append_right (containsSeq_append_right (ih h) sep) x

--==================================================
-- CLAIM THEOREMS
--==================================================

/-- C5: `assess_message_risk` returns risk level `high` iff the lowercased
message contains one of the six destructive keywords as a substring (so
case variants behave identically); the matched keywords are exactly the
filtered keyword list, appear verbatim in the explanation and in
`keywords_found`; otherwise the result is `low` with an empty
`keywords_found`.  The function is a total Lean function of the message
alone (pure, no side effects, no failure modes), and factors through the
lowercased message, which is the case-insensitivity property. -/
theorem c5_assess_message_risk_spec (m : Str) :
    ((assess_message_risk m).risk_level = "high".toList ↔
      ∃ kw ∈ dangerous_keywords, containsSeq kw (lowerL m) = true)
    ∧ (assess_message_risk m).keywords_found
        = dangerous_keywords.filter (fun kw => containsSeq kw (lowerL m))
    ∧ ((¬ ∃ kw ∈ dangerous_keywords, containsSeq kw (lowerL m) = true) →
        (assess_message_risk m).risk_level = "low".toList
          ∧ (assess_message_risk m).keywords_found = [])
    ∧ (∀ kw ∈ (assess_message_risk m).keywords_found,
        containsSeq kw (assess_message_risk m).explanation = true)
    ∧ (∀ m2, lowerL m2 = lowerL m → assess_message_risk m2 = assess_message_risk m) := by
  have hchar : ∀ m2 : Str, lowerL m2 = lowerL m → assess_message_risk m2 = assess_message_risk m := by
    intro m2 h
    unfold assess_message_risk
    rw [h]
  have hex : (∃ kw ∈ dangerous_keywords, containsSeq kw (lowerL m) = true) ↔
      dangerous_keywords.filter (fun kw => containsSeq kw (lowerL m)) ≠ [] := by
    rw [ne_eq, List.filter_eq_nil_iff]
    simp
  by_cases hf : dangerous_keywords.filter (fun kw => containsSeq kw (lowerL m)) = []
  · have hlow : assess_message_risk m =
        { risk_level := "low".toList,
          explanation := "This request appears safe to process.".toList,
          keywords_found := [] } := by
      unfold assess_message_risk
      dsimp only
      rw [hf]
      rfl
    refine ⟨?_, ?_, ?_, ?_, hchar⟩
    · rw [hlow]
      constructor
      · intro h
        exact absurd h (by decide)
      · intro h
        exact absurd (hex.mp h) (by simp [hf])
    · rw [hlow, hf]
    · intro _
      rw [hlow]
      exact ⟨rfl, rfl⟩
    · rw [hlow]
      intro kw h
      cases h
  · have hhigh : assess_message_risk m =
        { risk_level := "high".toList,
          explanation :=
            "This request contains potentially dangerous operations: ".toList
              ++ joinSep ", ".toList (dangerous_keywords.filter (fun kw => containsSeq kw (lowerL m)))
              ++ ". This action may modify or delete data.".toList,
          keywords_found := dangerous_keywords.filter (fun kw => containsSeq kw (lowerL m)) } := by
      unfold assess_message_risk
      dsimp only
      rw [if_neg (by simpa [List.isEmpty_iff] using hf)]
    refine ⟨?_, ?_, ?_, ?_, hchar⟩
    · rw [hhigh]
      exact ⟨fun _ => hex.mpr hf, fun _ => rfl⟩
    · rw [hhigh]
    · intro h
      exact absurd (hex.mpr hf) h
    · rw [hhigh]
      intro kw hkw
      have hjoin := containsSeq_joinSep hkw (", ".toList)
      exact containsSeq_append_left
        (containsSeq_append_right hjoin
          "This request contains potentially dangerous operations: ".toList)
        ". This action may modify or delete data.".toList

/-- C5 witness: a message containing `DROP` is rated high, one without any
keyword is rated low, instantiating `c5_assess_message_risk_spec`. -/
theorem c5_witness :
    (assess_message_risk "Please DROP the table".toList).risk_level = "high".toList
    ∧ (assess_message_risk "hello there".toList).risk_level = "low".toList := by
  constructor
  · exact (c5_assess_message_risk_spec "Please DROP the table".toList).1.mpr
      ⟨"drop".toList, by decide, by decide⟩
  · exact ((c5_assess_message_risk_spec "hello there".toList).2.2.1 (by decide)).1

/-- C6 counterexample: with the configured maximum at its default value 1 and
three successful turns, the stored history afterwards is ONE message — the
last assistant reply — not the most recent user+assistant exchange of two
messages that the claim describes: `GROQ_MAX_CONVERSATION_HISTORY` counts
messages, not exchanges. -/
theorem c6_counterexample_three_turns_single_message :
    runChatTurns 1 []
      [("q1".toList, ⟨true, "A1".toList, []⟩),
       ("q2".toList, ⟨true, "A2".toList, []⟩),
       ("q3".toList, ⟨true, "A3".toList, []⟩)]
      = [⟨"assistant".toList, "A3".toList⟩]
    ∧ (runChatTurns 1 []
        [("q1".toList, ⟨true, "A1".toList, []⟩),
         ("q2".toList, ⟨true, "A2".toList, []⟩),
         ("q3".toList, ⟨true, "A3".toList, []⟩)]).length ≠ 2 := by
  constructor
  · decide
  · decide

/-- C6 amended: after every successful chat turn the stored history length is
at most the configured maximum, provided that maximum is at least 1 (a
configured 0 disables truncation through the Python `[-0:]` slice); and with
the default maximum of 1 — which counts messages, not exchanges — three
successful sequential turns leave exactly the single most recent assistant
message in the stored history. -/
theorem c6_history_bound_amended :
    (∀ (max_history : Nat) (h : List ChatMsg) (m : Str) (r : LLMResult),
      1 ≤ max_history → r.success = true →
      (handle_ai_chat_request max_history h m r).length ≤ max_history)
    ∧ runChatTurns 1 []
        [("u1".toList, ⟨true, "B1".toList, []⟩),
         ("u2".toList, ⟨true, "B2".toList, []⟩),
         ("u3".toList, ⟨true, "B3".toList, []⟩)]
        = [⟨"assistant".toList, "B3".toList⟩] := by
  constructor
  · intro max_history h m r h1 hr
    unfold handle_ai_chat_request
    simp only [hr, if_true]
    split
    · unfold pyTakeLast
      rw [if_neg (by omega)]
      simp only [List.length_drop]
      omega
    · omega
  · decide

/-- C6 witness for the amended bound: a single successful turn on an
over-long pre-existing history is truncated to the maximum. -/
theorem c6_witness :
    1 ≤ 2 ∧ (⟨true, "ok".toList, []⟩ : LLMResult).success = true ∧
    (handle_ai_chat_request 2
      [⟨"user".toList, "a".toList⟩, ⟨"assistant".toList, "b".toList⟩]
      "c".toList ⟨true, "ok".toList, []⟩).length ≤ 2 :=
  ⟨by decide, rfl,
    c6_history_bound_amended.1 2
      [⟨"user".toList, "a".toList⟩, ⟨"assistant".toList, "b".toList⟩]
      "c".toList ⟨true, "ok".toList, []⟩ (by decide) rfl⟩

/-- C10: when the language-model call reports `success=False`,
`handle_ai_chat_request` leaves the stored conversation history exactly
unchanged; the history is updated only on success. -/
theorem c10_history_unchanged_on_failure (max_history : Nat) (h : List ChatMsg)
    (m : Str) (r : LLMResult) (hr : r.success = false) :
    handle_ai_chat_request max_history h m r = h := by
  unfold handle_ai_chat_request
  rw [if_neg (by simp [hr])]

/-- C10 witness: a failing call leaves a concrete one-message history
untouched. -/
theorem c10_witness :
    handle_ai_chat_request 1 [⟨"user".toList, "hi".toList⟩] "x".toList
      ⟨false, "apologies".toList, "rate limit".toList⟩
      = [⟨"user".toList, "hi".toList⟩] :=
  c10_history_unchanged_on_failure 1 _ _ _ rfl

/-- C1 (code bug): a final answer that matches the template-placeholder
patterns — here the literal `[list of companies]`, which fires two of the
seven patterns — is nonetheless RETURNED AS A SUCCESS when a tool ran
earlier: the `continue` on llm.py line 613 re-enters the `for` loop over
patterns instead of the `while` loop, so after logging "REJECTING" control
falls through to the success return.  The only trace of the intended
rejection is the `iterations` count `4` (bumped once per matching pattern)
instead of `2`. -/
theorem c1_placeholder_final_answer_returned_as_success :
    templateCount "The companies are [list of companies].".toList = 2
    ∧ handle_ai_chat_request_react envPlaceholderRun "Which companies did I work for?".toList
      = .answered
          ("The companies are [list of companies].\n\n--- Operations performed ---\nSQL: SELECT name FROM institutions\n".toList)
          4
    ∧ outcomeSuccess
        (handle_ai_chat_request_react envPlaceholderRun "Which companies did I work for?".toList)
        = true := by
  refine ⟨by decide, by decide, by decide⟩

/-- C2 counterexample: the only tool call in this run FAILS (its observation
is an `Error: ...` string, no tool ever succeeded), yet the following
final answer is accepted and returned as the success response — because
`tools_executed` records dispatch, not success.  So a final answer produced
before any tool has SUCCESSFULLY executed is not always rejected. -/
theorem c2_counterexample_failed_tool_then_final_answer_accepted :
    execute_sql_query envErrorToolRun.backend "SELECT x FROM skills".toList
      = "Error: relation skills does not exist".toList
    ∧ handle_ai_chat_request_react envErrorToolRun "what skills do I have".toList
      = .answered
          ("You have no skills recorded.\n\n--- Operations performed ---\nSQL: SELECT x FROM skills\n".toList)
          2 := by
  exact ⟨by decide, by decide⟩

/-- C2 amended: the ReAct loop never accepts a final answer while
`tools_executed` is still empty — i.e. before any semantic_search or
sql_query action has been DISPATCHED (successfully or not) and before any
crawl_web action has succeeded: such a final answer is rejected with a
corrective observation and the loop continues; consequently an accepted
answer always reports at least 2 iterations, so an immediate first-iteration
final answer is never returned as the success response. -/
theorem c2_no_tool_dispatch_final_answer_rejected :
    (∀ (env : ReactEnv) (st : ReactState),
      st.toolsExecuted = [] →
      (env.llm st.question st.observations st.iteration).success = true →
      hasFinalAnswer (stripL (env.llm st.question st.observations st.iteration).response) = true →
      reactPass env st = .inr { st with
        observations := st.observations
          ++ ["Observation: ERROR: You must execute at least one tool (semantic_search, sql_query, or crawl_web) before providing a Final Answer. Do not skip tool execution.".toList],
        iteration := st.iteration + 1 })
    ∧ (∀ (env : ReactEnv) (q r : Str) (i : Nat),
        handle_ai_chat_request_react env q = .answered r i → 2 ≤ i) := by
  constructor
  · intro env st ht hs hfa
    exact reactPass_eq_reject hs hfa ht
  · intro env q r i h
    exact reactLoop_answered_min_iterations maxIterations _ (fun hne => absurd rfl hne) h

/-- C2 witness: a first-iteration final answer (state with no tools executed)
is turned into a corrective observation and a continued loop, and the
accepted answer of the counterexample run indeed reports 2 iterations. -/
theorem c2_witness :
    reactPass envErrorToolRun ⟨1, [], [], [], QVal.text "q".toList⟩
      = .inr ⟨2,
          ["Observation: ERROR: You must execute at least one tool (semantic_search, sql_query, or crawl_web) before providing a Final Answer. Do not skip tool execution.".toList],
          [], [], QVal.text "q".toList⟩
    ∧ 2 ≤ 2 :=
  ⟨c2_no_tool_dispatch_final_answer_rejected.1 envErrorToolRun
      ⟨1, [], [], [], QVal.text "q".toList⟩ rfl rfl (by decide),
   c2_no_tool_dispatch_final_answer_rejected.2 envErrorToolRun
     "what skills do I have".toList
     ("You have no skills recorded.\n\n--- Operations performed ---\nSQL: SELECT x FROM skills\n".toList)
     2 (by decide)⟩

/-- C3: (a) one run of the ReAct loop consults the model oracle only at call
ordinals below `maxIterations` — two environments that agree on those calls
(and share the tool oracles) produce identical outcomes, so at most
`maxIterations` model calls are made; (b) for a model whose responses always
succeed and never contain a final-answer marker, the run ends unsuccessfully
with the `iterations` field equal to `maxIterations`, after exactly
`maxIterations` passes. -/
theorem c3_model_call_bound_and_exhaustion :
    (∀ (env : ReactEnv) (llm2 : QVal → List Str → Nat → LLMResult) (q : Str),
      (∀ qv o i, i < maxIterations → llm2 qv o i = env.llm qv o i) →
      handle_ai_chat_request_react { env with llm := llm2 } q
        = handle_ai_chat_request_react env q)
    ∧ (∀ (env : ReactEnv) (q : Str),
        (∀ qv o i, (env.llm qv o i).success = true) →
        (∀ qv o i, hasFinalAnswer (stripL (env.llm qv o i).response) = false) →
        outcomeSuccess (handle_ai_chat_request_react env q) = false
          ∧ outcomeIterations (handle_ai_chat_request_react env q) = some maxIterations) := by
  constructor
  · intro env llm2 q hagree
    exact reactLoop_llm_agree maxIterations _ (fun qv o i hi => hagree qv o i (by simpa using hi))
  · intro env q hs hfa
    obtain ⟨st', h⟩ :=
      reactLoop_nonterminal_exhausts hs hfa maxIterations ⟨0, [], [], [], QVal.text q⟩
    have hrun : handle_ai_chat_request_react env q = exhaustResult st' := h
    constructor
    · rw [hrun]
      unfold exhaustResult
      split <;> rfl
    · rw [hrun]
      unfold exhaustResult
      split <;> rfl

/-- C3 witness: the bound applied to an environment agreeing with itself, and
the exhaustion conclusion evaluated on a concrete always-non-terminal
model. -/
theorem c3_witness :
    handle_ai_chat_request_react { envNonTerminalRun with llm := envNonTerminalRun.llm } "q".toList
      = handle_ai_chat_request_react envNonTerminalRun "q".toList
    ∧ outcomeSuccess (handle_ai_chat_request_react envNonTerminalRun "q".toList) = false
    ∧ outcomeIterations (handle_ai_chat_request_react envNonTerminalRun "q".toList)
        = some maxIterations :=
  ⟨c3_model_call_bound_and_exhaustion.1 envNonTerminalRun envNonTerminalRun.llm "q".toList
      (fun _ _ _ _ => rfl),
   (c3_model_call_bound_and_exhaustion.2 envNonTerminalRun "q".toList
      (fun _ _ _ => rfl) (fun _ _ _ => rfl)).1,
   (c3_model_call_bound_and_exhaustion.2 envNonTerminalRun "q".toList
      (fun _ _ _ => rfl) (fun _ _ _ => rfl)).2⟩

/-- A model that names `semantic_search` with an unparseable payload. -/
def envNoArgsRun : ReactEnv :=
  { llm := fun _ _ _ => ⟨true, "Action: semantic_search\nAction Input: find MSU stuff".toList, []⟩,
    backend := demoBackend,
    crawl := fun _ => .otherAction "x".toList }

theorem semanticArgs_default {ai t : Str}
    (h : findTable ai t = none ∨ findQuery ai t = none) :
    semanticArgs ai t = ("institutions".toList, "MSU".toList) := by
  unfold semanticArgs
  rcases h with h | h
  · rw [h]
  · rw [h]
    cases findTable ai t <;> rfl

/-- C7: the semantic-search dispatch.  (a) Whenever the parsed action is
`semantic_search` but no table/query pair can be extracted by any of the
layered attempts, the pass still executes the search with the hard defaults
`table=institutions, query=MSU`, records it, and continues — it never fails;
(b) the key=value style parses; (c) the quoted dict-literal style parses;
(d) when the narrow action input yields nothing, the full raw response text
is re-scanned (note the captures then come from the lowercased text). -/
theorem c7_semantic_search_extraction :
    (∀ (env : ReactEnv) (st : ReactState) (w : Str),
      (env.llm st.question st.observations st.iteration).success = true →
      hasFinalAnswer (stripL (env.llm st.question st.observations st.iteration).response) = false →
      findActionName (stripL (env.llm st.question st.observations st.iteration).response) = some w →
      lowerL w = "semantic_search".toList →
      (findTable (extractActionInput (stripL (env.llm st.question st.observations st.iteration).response))
          (stripL (env.llm st.question st.observations st.iteration).response) = none
        ∨ findQuery (extractActionInput (stripL (env.llm st.question st.observations st.iteration).response))
            (stripL (env.llm st.question st.observations st.iteration).response) = none) →
      reactPass env st = .inr
        { iteration := st.iteration + 1,
          observations := st.observations
            ++ ["Observation: ".toList
                  ++ execute_semantic_search env.backend "institutions".toList "MSU".toList],
          opTrace := st.opTrace
            ++ [("semantic_search".toList, "table=institutions, query=MSU".toList)],
          toolsExecuted := st.toolsExecuted ++ ["semantic_search".toList],
          question := st.question })
    ∧ (∀ t, semanticArgs "table=\"skills\", query=\"python\"".toList t
        = ("skills".toList, "python".toList))
    ∧ (∀ t, semanticArgs "\"table\": \"skills\", \"query\": \"python\"".toList t
        = ("skills".toList, "python".toList))
    ∧ semanticArgs []
        "Action: semantic_search with \"table\": \"Institutions\", \"query\": \"MSU\"".toList
        = ("institutions".toList, "msu".toList)
    ∧ semanticArgs [] "Action: semantic_search".toList
        = ("institutions".toList, "MSU".toList) := by
  refine ⟨?_, fun t => rfl, fun t => rfl, by decide, by decide⟩
  intro env st w hs hfa hname hsem hdef
  rw [reactPass_eq_act hs hfa]
  dsimp only
  rw [actEffect_semantic hname hsem, semanticArgs_default hdef]
  rfl

/-- C7 witness: the default-dispatch part applied to a run whose model output
names `semantic_search` but offers no parseable arguments. -/
theorem c7_witness :
    reactPass envNoArgsRun ⟨0, [], [], [], QVal.text "q".toList⟩
      = .inr
          { iteration := 1,
            observations :=
              ["Observation: ".toList
                 ++ execute_semantic_search envNoArgsRun.backend "institutions".toList "MSU".toList],
            opTrace := [("semantic_search".toList, "table=institutions, query=MSU".toList)],
            toolsExecuted := ["semantic_search".toList],
            question := QVal.text "q".toList } :=
  c7_semantic_search_extraction.1 envNoArgsRun ⟨0, [], [], [], QVal.text "q".toList⟩
    "semantic_search".toList rfl (by decide) (by decide) (by decide) (by decide)

/-- A run whose semantic search fails at the embedding stage and whose second
response is a final answer. -/
def envEmbedFailRun : ReactEnv :=
  { llm := fun _ _ i =>
      if i = 0 then
        ⟨true, "Action: semantic_search\nAction Input: table=\"institutions\", query=\"MSU\"".toList, []⟩
      else ⟨true, "Final Answer: No information found.".toList, []⟩,
    backend :=
      { genQueryEmbedding := fun _ => none,
        dbSemanticSearch := fun _ _ => .exn "unreachable".toList,
        dbQuery := fun _ => .exn "unreachable".toList },
    crawl := fun _ => .otherAction "x".toList }

/-- C8: (a) whenever the parsed action is `semantic_search` or `sql_query`,
the pass appends that tool name to `tools_executed` no matter what
observation string the executor produced — error observations included; (b)
concretely, a run whose only tool execution fails at the query-embedding
stage (an `Error: ...` observation, nothing ever returned data) still has its
subsequent final answer pass the tool-execution validation and be returned
as the success response. -/
theorem c8_error_observation_still_counts_tool :
    (∀ (env : ReactEnv) (st : ReactState) (w : Str),
      (env.llm st.question st.observations st.iteration).success = true →
      hasFinalAnswer (stripL (env.llm st.question st.observations st.iteration).response) = false →
      findActionName (stripL (env.llm st.question st.observations st.iteration).response) = some w →
      (lowerL w = "semantic_search".toList ∨ lowerL w = "sql_query".toList) →
      ∃ st', reactPass env st = .inr st'
        ∧ st'.toolsExecuted = st.toolsExecuted ++ [lowerL w])
    ∧ execute_semantic_search envEmbedFailRun.backend "institutions".toList "MSU".toList
        = "Error: Failed to generate query embedding".toList
    ∧ handle_ai_chat_request_react envEmbedFailRun "find my MSU experience".toList
        = .answered
            ("No information found.\n\n--- Operations performed ---\nSemantic search: table=institutions, query=MSU\n".toList)
            2 := by
  refine ⟨?_, by decide, by decide⟩
  intro env st w hs hfa hname hkind
  rcases hkind with hk | hk
  · refine ⟨_, reactPass_eq_act hs hfa, ?_⟩
    dsimp only
    rw [actEffect_semantic hname hk, hk]
  · refine ⟨_, reactPass_eq_act hs hfa, ?_⟩
    dsimp only
    rw [actEffect_sql hname hk, hk]

/-- C8 witness: the append fact applied to the first pass of the
embedding-failure run. -/
theorem c8_witness :
    ∃ st', reactPass envEmbedFailRun ⟨0, [], [], [], QVal.text "q".toList⟩ = .inr st'
      ∧ st'.toolsExecuted = [] ++ ["semantic_search".toList] :=
  c8_error_observation_still_counts_tool.1 envEmbedFailRun
    ⟨0, [], [], [], QVal.text "q".toList⟩ "semantic_search".toList
    rfl (by decide) (by decide) (Or.inl (by decide))

theorem reactPass_inr_quest {env : ReactEnv} {st st' : ReactState}
    (h : reactPass env st = .inr st') :
    st'.question = st.question ∨ ∃ u, st'.question = QVal.a2aCrawlMsg u := by
  by_cases hs : (env.llm st.question st.observations st.iteration).success = true
  · by_cases hfa : hasFinalAnswer (stripL (env.llm st.question st.observations st.iteration).response) = true
    · by_cases ht : st.toolsExecuted = []
      · rw [reactPass_eq_reject hs hfa ht] at h
        simp only [Sum.inr.injEq] at h
        subst h
        left
        rfl
      · rw [reactPass_eq_answered hs hfa ht] at h
        simp at h
    · rw [reactPass_eq_act hs (by simpa using hfa)] at h
      simp only [Sum.inr.injEq] at h
      subst h
      exact actEffect_quest_cases
  · rw [reactPass_eq_llmError (by simpa using hs)] at h
    simp at h

/-- C9: a dispatched `crawl_web` action with a parseable URL overwrites the
question variable of the loop with the A2A crawl-request message object
(llm.py lines 745-750); once overwritten, no later pass ever restores a text
question, and every later prompt — `build_react_prompt(message, observations)`
— is built from that object: the model oracle of the embedding receives the
question value directly, as witnessed by the concrete run whose model answers
differently once the question is the A2A object. -/
theorem c9_crawl_overwrites_question :
    (∀ (B : ReactBackend) (cr : Str → CrawlReply) (q : QVal) (t w url : Str),
      findActionName t = some w → lowerL w = "crawl_web".toList →
      findUrl (extractActionInput t) = some url →
      (actEffect B cr q t).quest = QVal.a2aCrawlMsg url)
    ∧ (∀ (env : ReactEnv) (st st' : ReactState) (u : Str),
        st.question = QVal.a2aCrawlMsg u → reactPass env st = .inr st' →
        ∃ u', st'.question = QVal.a2aCrawlMsg u')
    ∧ reactPass envCrawlRun ⟨0, [], [], [], QVal.text "what is on x.edu".toList⟩
        = .inr ⟨1, ["Observation: Web crawl completed: X Site - 3 chunks created".toList],
                [], ["crawl_web".toList], QVal.a2aCrawlMsg "http://x.edu".toList⟩
    ∧ handle_ai_chat_request_react envCrawlRun "what is on x.edu".toList
        = .answered "crawled.".toList 2 := by
  refine ⟨?_, ?_, by decide, by decide⟩
  · intro B cr q t w url h1 h2 h3
    exact actEffect_crawl_quest h1 h2 h3
  · intro env st st' u hq hp
    rcases reactPass_inr_quest hp with h | h
    · exact ⟨u, by rw [h, hq]⟩
    · exact h

/-- C9 witness: the overwrite fact applied to the concrete crawl action text
of the demo run, and the persistence fact applied to a pass that starts from
an already-overwritten question. -/
theorem c9_witness :
    (actEffect envCrawlRun.backend envCrawlRun.crawl
        (QVal.text "what is on x.edu".toList)
        "Action: crawl_web\nAction Input: url=http://x.edu".toList).quest
      = QVal.a2aCrawlMsg "http://x.edu".toList
    ∧ ∃ u', (⟨2,
          ["Observation: ERROR: You must execute at least one tool (semantic_search, sql_query, or crawl_web) before providing a Final Answer. Do not skip tool execution.".toList],
          [], [], QVal.a2aCrawlMsg "http://x.edu".toList⟩
          : ReactState).question = QVal.a2aCrawlMsg u' :=
  ⟨c9_crawl_overwrites_question.1 envCrawlRun.backend envCrawlRun.crawl
      (QVal.text "what is on x.edu".toList)
      "Action: crawl_web\nAction Input: url=http://x.edu".toList
      "crawl_web".toList "http://x.edu".toList
      (by decide) (by decide) (by decide),
   c9_crawl_overwrites_question.2.1 envCrawlRun
     ⟨1, [], [], [], QVal.a2aCrawlMsg "http://x.edu".toList⟩
     ⟨2,
       ["Observation: ERROR: You must execute at least one tool (semantic_search, sql_query, or crawl_web) before providing a Final Answer. Do not skip tool execution.".toList],
       [], [], QVal.a2aCrawlMsg "http://x.edu".toList⟩
     "http://x.edu".toList rfl (by decide)⟩

